import Mathlib

/-
  Verification of the snative permission engine (src/vm/snative.go).

  Modelling conventions:
  * A `Word256` (32-byte big-endian word) is modelled by its numeric value,
    a `Nat` (< 2^256 on every value the Go code can produce; the claims only
    need comparisons and low-64-bit reduction, which are width-independent).
  * Role names are decoded in Go by `string(role.Bytes())` — an injective map
    from 32-byte words to strings — so roles are modelled by the word value.
  * The mutable `appState` of Go is modelled by an association list from
    address words to accounts; `GetAccount` reads the first matching entry,
    `UpdateAccount` replaces the first entry keyed by the account's address
    (or appends it), exactly the Go observable behaviour of a keyed store.
  * Each executable returns its result together with the final state and the
    ordered list of addresses passed to `UpdateAccount`, mirroring the Go
    control flow statement by statement.
-/

namespace SNative

/-- `Uint64FromWord256` (tendermint common, declaration outside src/):
reads the last 8 bytes of a big-endian 32-byte word as a uint64, i.e. the
word value modulo 2^64. -/
def Uint64FromWord256 (w : Nat) : Nat := w % 2 ^ 64

/-- `LeftPadWord256` on a short byte slice: the value of the word whose low
bytes are the slice (big-endian) and whose high bytes are zero. -/
def LeftPadWord256 (bs : List Nat) : Nat := bs.foldl (fun a b => a * 256 + b) 0

/-- Byte `i` (0 = most significant, 31 = least significant) of the 32-byte
big-endian encoding of a word value. -/
def wordByte (w i : Nat) : Nat := w / 256 ^ (31 - i) % 256

/-- `p &^ t` of Go on uint64 values: clear in `p` every bit set in `t`.
For natural numbers this is `p ^^^ (p &&& t)`, which needs no width. -/
def clearBits (p t : Nat) : Nat := p ^^^ (p &&& t)

/-- The permission-flag constants of `permission/types` (not under src/);
the spec pins only `TopBasePermFlag < FirstSNativePermFlag ≤
TopSNativePermFlag`, so the development is parameterised over them, together
with the reserved `GlobalPermissionsAddress256`. -/
structure PermConsts where
  TopBasePermFlag : Nat
  FirstSNativePermFlag : Nat
  TopSNativePermFlag : Nat
  GlobalPermissionsAddress : Nat
deriving DecidableEq, Repr

/-- Modelled from the spec: `Permissions.Base` is "a bitset plus a parallel
'explicitly set' mask over PermFlag values" (`permission/types`, not under
src/). Flags are bit masks ("already shifted", src/vm/snative.go line 79). -/
structure BasePermissions where
  Perms : Nat
  SetBit : Nat
deriving DecidableEq, Repr

/-- Modelled from the spec: per-account base bitset and role set
(`permission/types.AccountPermissions`, not under src/). -/
structure AccountPermissions where
  Base : BasePermissions
  Roles : List Nat
deriving DecidableEq, Repr

/-- A VM account; only the fields the engine touches are modelled: its
address and its permissions. -/
structure Account where
  Address : Nat
  Permissions : AccountPermissions
deriving DecidableEq, Repr

/-- The abstract state accessor, modelled as an association list from
address words to accounts. -/
abbrev AppState := List (Nat × Account)

/-- `appState.GetAccount(addr)`: first entry stored under `addr`. -/
def GetAccount : AppState → Nat → Option Account
  | [], _ => none
  | (a, x) :: rest, addr => if a = addr then some x else GetAccount rest addr

/-- `appState.UpdateAccount(acc)`: store `acc` under its own address,
replacing the first existing entry for that address or appending. -/
def UpdateAccount : AppState → Account → AppState
  | [], acc => [(acc.Address, acc)]
  | (a, x) :: rest, acc =>
    if a = acc.Address then (a, acc) :: rest else (a, x) :: UpdateAccount rest acc

/-- A state is well formed when every stored account carries the address it
is stored under — the invariant the real `GetAccount` guarantees. -/
def accountsWellFormed : AppState → Bool
  | [] => true
  | (a, x) :: rest => x.Address == a && accountsWellFormed rest

/-- Membership of a role word in a role list (Go loops with `==`). -/
def hasRoleIn : List Nat → Nat → Bool
  | [], _ => false
  | x :: rest, r => x = r || hasRoleIn rest r

/-- Removal of the first occurrence of a role word, as Go's
`append(roles[:i], roles[i+1:]...)`. -/
def removeRole : List Nat → Nat → List Nat
  | [], _ => []
  | x :: rest, r => if x = r then rest else x :: removeRole rest r

/-- Modelled from the spec: `AccountPermissions.HasRole` (not under src/),
membership of the role in the account's role set. -/
def AccountPermissions.HasRole (ap : AccountPermissions) (r : Nat) : Bool :=
  hasRoleIn ap.Roles r

/-- Modelled from the spec: `AccountPermissions.AddRole` (not under src/).
Adding a role already present is a no-op that reports no change (`false`);
otherwise the role is appended and `true` is reported. -/
def AccountPermissions.AddRole (ap : AccountPermissions) (r : Nat) :
    Bool × AccountPermissions :=
  if hasRoleIn ap.Roles r then (false, ap)
  else (true, { ap with Roles := ap.Roles ++ [r] })

/-- Modelled from the spec: `AccountPermissions.RmRole` (not under src/).
Removing an absent role is a no-op that reports no change (`false`);
otherwise the first occurrence is removed and `true` is reported. -/
def AccountPermissions.RmRole (ap : AccountPermissions) (r : Nat) :
    Bool × AccountPermissions :=
  if hasRoleIn ap.Roles r then (true, { ap with Roles := removeRole ap.Roles r })
  else (false, ap)

/-- Modelled from the spec: `BasePermissions.Set` (not under src/) records
the flag in the explicitly-set mask and writes its value into the bitset; it
fails when the flag is not one the base-permission mechanism recognises
(modelled as the empty bit mask, which identifies no permission). `none` is
the failure, whose propagated error names the offending flag. -/
def BasePermissions.set (p : BasePermissions) (ty : Nat) (value : Bool) :
    Option BasePermissions :=
  if ty = 0 then none
  else some { Perms := if value then p.Perms ||| ty else clearBits p.Perms ty,
              SetBit := p.SetBit ||| ty }

/-- Modelled from the spec: `BasePermissions.Unset` (not under src/) clears
the flag from the explicitly-set mask; same failure condition as `set`. -/
def BasePermissions.unset (p : BasePermissions) (ty : Nat) :
    Option BasePermissions :=
  if ty = 0 then none
  else some { Perms := p.Perms, SetBit := clearBits p.SetBit ty }

/-- Modelled from the spec: `HasPermission` (vm helper, not under src/)
reports whether "the account has the base permission set" — the flag's bits
in the account's base bitset. The Go helper also receives the appState for a
chain-wide default mechanism the spec does not describe; the spec-faithful
model reads only the account's own bitset. -/
def HasPermission (acc : Account) (f : Nat) : Bool :=
  decide (0 < acc.Permissions.Base.Perms &&& f)

/-- `ValidPermN` (src/vm/snative.go lines 215-222), statement by statement. -/
def ValidPermN (C : PermConsts) (n : Nat) : Bool :=
  if C.TopBasePermFlag < n ∧ n < C.FirstSNativePermFlag then false
  else if C.TopSNativePermFlag < n then false
  else true

/-- The errors an executable can return. `invalidPermission` models
`ptypes.ErrInvalidPermission(permN)`: every call site in src/vm/snative.go
passes only the offending flag to the constructor, so the flag is all the
error can carry. `globalAccountMissing` models the `PanicSanity` of
`setGlobalPerm`, a fatal condition rather than a recoverable error. -/
inductive SnErr where
  | unknownAccount (addr : Nat)
  | invalidPermission (flag : Nat)
  | globalAccountMissing
deriving DecidableEq, Repr

/-- Result word or error of one executable invocation. -/
inductive SnResult where
  | ok (output : Nat)
  | err (e : SnErr)
deriving DecidableEq, Repr

/-- Whether an invocation succeeded. -/
def SnResult.isOk : SnResult → Bool
  | .ok _ => true
  | .err _ => false

/-- Full observable outcome of one executable invocation: the returned
word-or-error, the final appState, and the ordered addresses passed to
`UpdateAccount`. -/
structure ExecRes where
  result : SnResult
  state : AppState
  updates : List Nat
deriving DecidableEq, Repr

/-- `returnTwoArgs` (src/vm/snative.go lines 225-229): the first two words
of the argument buffer. -/
def returnTwoArgs (args : List Nat) : Nat × Nat := (args.getD 0 0, args.getD 1 0)

/-- `returnThreeArgs` (src/vm/snative.go lines 232-237): the first three
words of the argument buffer. -/
def returnThreeArgs (args : List Nat) : Nat × Nat × Nat :=
  (args.getD 0 0, args.getD 1 0, args.getD 2 0)

/-- `hasBasePerm` (src/vm/snative.go lines 73-91). -/
def hasBasePerm (C : PermConsts) (st : AppState) (args : List Nat) : ExecRes :=
  let addr := (returnTwoArgs args).1
  let permNum := (returnTwoArgs args).2
  match GetAccount st addr with
  | none => ⟨.err (.unknownAccount addr), st, []⟩
  | some vmAcc =>
    let permN := Uint64FromWord256 permNum
    if ¬ ValidPermN C permN then ⟨.err (.invalidPermission permN), st, []⟩
    else
      let permInt : Nat := if HasPermission vmAcc permN then 1 else 0
      ⟨.ok (LeftPadWord256 [permInt]), st, []⟩

/-- `setBasePerm` (src/vm/snative.go lines 93-110). -/
def setBasePerm (C : PermConsts) (st : AppState) (args : List Nat) : ExecRes :=
  let addr := (returnThreeArgs args).1
  let permNum := (returnThreeArgs args).2.1
  let perm := (returnThreeArgs args).2.2
  match GetAccount st addr with
  | none => ⟨.err (.unknownAccount addr), st, []⟩
  | some vmAcc =>
    let permN := Uint64FromWord256 permNum
    if ¬ ValidPermN C permN then ⟨.err (.invalidPermission permN), st, []⟩
    else
      let permV : Bool := decide (¬ perm = 0)
      match vmAcc.Permissions.Base.set permN permV with
      | none => ⟨.err (.invalidPermission permN), st, []⟩
      | some newBase =>
        let newAcc : Account :=
          { vmAcc with Permissions := { vmAcc.Permissions with Base := newBase } }
        ⟨.ok perm, UpdateAccount st newAcc, [newAcc.Address]⟩

/-- `unsetBasePerm` (src/vm/snative.go lines 112-128). -/
def unsetBasePerm (C : PermConsts) (st : AppState) (args : List Nat) : ExecRes :=
  let addr := (returnTwoArgs args).1
  let permNum := (returnTwoArgs args).2
  match GetAccount st addr with
  | none => ⟨.err (.unknownAccount addr), st, []⟩
  | some vmAcc =>
    let permN := Uint64FromWord256 permNum
    if ¬ ValidPermN C permN then ⟨.err (.invalidPermission permN), st, []⟩
    else
      match vmAcc.Permissions.Base.unset permN with
      | none => ⟨.err (.invalidPermission permN), st, []⟩
      | some newBase =>
        let newAcc : Account :=
          { vmAcc with Permissions := { vmAcc.Permissions with Base := newBase } }
        ⟨.ok permNum, UpdateAccount st newAcc, [newAcc.Address]⟩

/-- `setGlobalPerm` (src/vm/snative.go lines 130-147). -/
def setGlobalPerm (C : PermConsts) (st : AppState) (args : List Nat) : ExecRes :=
  let permNum := (returnTwoArgs args).1
  let perm := (returnTwoArgs args).2
  match GetAccount st C.GlobalPermissionsAddress with
  | none => ⟨.err .globalAccountMissing, st, []⟩
  | some vmAcc =>
    let permN := Uint64FromWord256 permNum
    if ¬ ValidPermN C permN then ⟨.err (.invalidPermission permN), st, []⟩
    else
      let permV : Bool := decide (¬ perm = 0)
      match vmAcc.Permissions.Base.set permN permV with
      | none => ⟨.err (.invalidPermission permN), st, []⟩
      | some newBase =>
        let newAcc : Account :=
          { vmAcc with Permissions := { vmAcc.Permissions with Base := newBase } }
        ⟨.ok perm, UpdateAccount st newAcc, [newAcc.Address]⟩

/-- `hasRole` (src/vm/snative.go lines 149-164). -/
def hasRole (st : AppState) (args : List Nat) : ExecRes :=
  let addr := (returnTwoArgs args).1
  let role := (returnTwoArgs args).2
  match GetAccount st addr with
  | none => ⟨.err (.unknownAccount addr), st, []⟩
  | some vmAcc =>
    let permInt : Nat := if vmAcc.Permissions.HasRole role then 1 else 0
    ⟨.ok (LeftPadWord256 [permInt]), st, []⟩

/-- `addRole` (src/vm/snative.go lines 166-182): the account is persisted
whether or not the role was newly added. -/
def addRole (st : AppState) (args : List Nat) : ExecRes :=
  let addr := (returnTwoArgs args).1
  let role := (returnTwoArgs args).2
  match GetAccount st addr with
  | none => ⟨.err (.unknownAccount addr), st, []⟩
  | some vmAcc =>
    let r := vmAcc.Permissions.AddRole role
    let permInt : Nat := if r.1 then 1 else 0
    let newAcc : Account := { vmAcc with Permissions := r.2 }
    ⟨.ok (LeftPadWord256 [permInt]), UpdateAccount st newAcc, [newAcc.Address]⟩

/-- `rmRole` (src/vm/snative.go lines 184-200): the account is persisted
whether or not the role was present. -/
def rmRole (st : AppState) (args : List Nat) : ExecRes :=
  let addr := (returnTwoArgs args).1
  let role := (returnTwoArgs args).2
  match GetAccount st addr with
  | none => ⟨.err (.unknownAccount addr), st, []⟩
  | some vmAcc =>
    let r := vmAcc.Permissions.RmRole role
    let permInt : Nat := if r.1 then 1 else 0
    let newAcc : Account := { vmAcc with Permissions := r.2 }
    ⟨.ok (LeftPadWord256 [permInt]), UpdateAccount st newAcc, [newAcc.Address]⟩

/-- The seven registered snative contracts (src/vm/snative.go lines 27-35). -/
inductive SNativeName where
  | hasBase | setBase | unsetBase | setGlobal | hasRole | addRole | rmRole
deriving DecidableEq, Repr

/-- Dispatch from a contract name to its executable body, as the registry
maps each padded name word to its descriptor's executable. -/
def execute : SNativeName → PermConsts → AppState → List Nat → ExecRes
  | .hasBase, C, st, args => hasBasePerm C st args
  | .setBase, C, st, args => setBasePerm C st args
  | .unsetBase, C, st, args => unsetBasePerm C st args
  | .setGlobal, C, st, args => setGlobalPerm C st args
  | .hasRole, _, st, args => hasRole st args
  | .addRole, _, st, args => addRole st args
  | .rmRole, _, st, args => rmRole st args

/-- Reading after an update: the updated account is visible at its own
address and every other address is untouched. -/
theorem GetAccount_UpdateAccount (st : AppState) (acc : Account) (a : Nat) :
    GetAccount (UpdateAccount st acc) a =
      if a = acc.Address then some acc else GetAccount st a := by
  induction st with
  | nil =>
    by_cases h : a = acc.Address
    · subst h; simp [UpdateAccount, GetAccount]
    · simp [UpdateAccount, GetAccount, h, Ne.symm h]
  | cons p rest ih =>
    obtain ⟨b, x⟩ := p
    by_cases hb : b = acc.Address
    · subst hb
      by_cases ha : a = acc.Address
      · subst ha; simp [UpdateAccount, GetAccount]
      · simp [UpdateAccount, GetAccount, ha, Ne.symm ha]
    · by_cases ha : b = a
      · subst ha
        simp [UpdateAccount, GetAccount, hb]
      · simp [UpdateAccount, GetAccount, hb, ha, ih]

/-- In a well-formed state, an account found at an address carries that
address. -/
theorem address_of_GetAccount (st : AppState) (a : Nat) (acc : Account)
    (hwf : accountsWellFormed st = true) (h : GetAccount st a = some acc) :
    acc.Address = a := by
  induction st with
  | nil => simp [GetAccount] at h
  | cons p rest ih =>
    obtain ⟨b, x⟩ := p
    simp only [accountsWellFormed, Bool.and_eq_true, beq_iff_eq] at hwf
    obtain ⟨hwf1, hwf2⟩ := hwf
    by_cases hb : b = a
    · subst hb
      have hx : x = acc := by simpa [GetAccount] using h
      subst hx
      exact hwf1
    · refine ih hwf2 ?_
      simpa [GetAccount, hb] using h

/-- Setting bits and reading them back: `(a ||| f) &&& f = f`. -/
theorem lor_land_self (a f : Nat) : (a ||| f) &&& f = f := by
  apply Nat.eq_of_testBit_eq
  intro i
  simp only [Nat.testBit_land, Nat.testBit_lor]
  cases a.testBit i <;> cases f.testBit i <;> rfl

/-- Clearing bits removes them: `clearBits p f &&& f = 0`. -/
theorem clearBits_land (p f : Nat) : clearBits p f &&& f = 0 := by
  apply Nat.eq_of_testBit_eq
  intro i
  simp only [clearBits, Nat.testBit_land, Nat.testBit_xor, Nat.zero_testBit]
  cases p.testBit i <;> cases f.testBit i <;> rfl

/-- A role appended at the end is found. -/
theorem hasRoleIn_append_self (l : List Nat) (r : Nat) :
    hasRoleIn (l ++ [r]) r = true := by
  induction l with
  | nil => simp [hasRoleIn]
  | cons x rest ih => simp [hasRoleIn, ih]

/-- Removing a role that occurs only as the appended last element restores
the original list. -/
theorem removeRole_append_of_absent (l : List Nat) (r : Nat)
    (h : hasRoleIn l r = false) : removeRole (l ++ [r]) r = l := by
  induction l with
  | nil => simp [removeRole]
  | cons x rest ih =>
    simp only [hasRoleIn, Bool.or_eq_false_iff, decide_eq_false_iff_not] at h
    show removeRole (x :: (rest ++ [r])) r = x :: rest
    simp only [removeRole, if_neg h.1]
    rw [ih h.2]

/-- C1: for every one of the seven executables, when the invocation returns
an error — in particular when the address resolves to no account or the
supplied PermFlag is invalid — no `UpdateAccount` call is made and the state
observable through `GetAccount` afterwards is identical to the state before
the call: the returned state is the input state unchanged. -/
theorem C1_no_mutation_on_failure (n : SNativeName) (C : PermConsts)
    (st : AppState) (args : List Nat) (e : SnErr)
    (h : (execute n C st args).result = .err e) :
    (execute n C st args).state = st ∧ (execute n C st args).updates = [] := by
  cases n <;>
    · simp only [execute, hasBasePerm, setBasePerm, unsetBasePerm,
        setGlobalPerm, hasRole, addRole, rmRole] at h ⊢
      revert h
      repeat' split
      all_goals intro h
      all_goals first
        | exact ⟨rfl, rfl⟩
        | simp at h

/-- C1 witness: `HasBase` against the empty state fails with an
unknown-account error and leaves the state untouched. -/
theorem C1_witness :
    (execute .hasBase ⟨7, 32, 64, 0⟩ [] [5, 1]).result = .err (.unknownAccount 5) ∧
    (execute .hasBase ⟨7, 32, 64, 0⟩ [] [5, 1]).state = [] ∧
    (execute .hasBase ⟨7, 32, 64, 0⟩ [] [5, 1]).updates = [] := by
  refine ⟨by decide, ?_, ?_⟩
  · exact (C1_no_mutation_on_failure .hasBase ⟨7, 32, 64, 0⟩ [] [5, 1]
      (.unknownAccount 5) (by decide)).1
  · exact (C1_no_mutation_on_failure .hasBase ⟨7, 32, 64, 0⟩ [] [5, 1]
      (.unknownAccount 5) (by decide)).2

/-- C2: under the spec's ordering of the flag constants, `ValidPermN n` is
true exactly when `n` lies in `[0, TopBasePermFlag]` or in
`[FirstSNativePermFlag, TopSNativePermFlag]`; the gap between the ranges and
everything above the native range is rejected. -/
theorem C2_validPermN_iff (C : PermConsts)
    (h1 : C.TopBasePermFlag < C.FirstSNativePermFlag)
    (h2 : C.FirstSNativePermFlag ≤ C.TopSNativePermFlag) (n : Nat) :
    ValidPermN C n = true ↔
      (n ≤ C.TopBasePermFlag ∨
        (C.FirstSNativePermFlag ≤ n ∧ n ≤ C.TopSNativePermFlag)) := by
  unfold ValidPermN
  split
  · rename_i hgap
    constructor
    · intro hf; exact absurd hf (by decide)
    · intro hr; exfalso; omega
  · rename_i hgap
    split
    · rename_i htop
      constructor
      · intro hf; exact absurd hf (by decide)
      · intro hr; exfalso; omega
    · rename_i htop
      constructor
      · intro _; omega
      · intro _; rfl

/-- C2 witness: with bounds 7 < 32 ≤ 64, the gap value 20 is invalid. -/
theorem C2_witness :
    ((⟨7, 32, 64, 0⟩ : PermConsts).TopBasePermFlag <
        (⟨7, 32, 64, 0⟩ : PermConsts).FirstSNativePermFlag ∧
      (⟨7, 32, 64, 0⟩ : PermConsts).FirstSNativePermFlag ≤
        (⟨7, 32, 64, 0⟩ : PermConsts).TopSNativePermFlag) ∧
    (ValidPermN ⟨7, 32, 64, 0⟩ 20 = true ↔
      (20 ≤ 7 ∨ (32 ≤ 20 ∧ 20 ≤ 64))) :=
  ⟨⟨by decide, by decide⟩, C2_validPermN_iff ⟨7, 32, 64, 0⟩ (by decide) (by decide) 20⟩

/-- C3 counterexample: two different contracts (`HasBase` and `UnsetBase`)
rejecting the same invalid flag 8 (in the gap of bounds 7 < 32 ≤ 64) return
literally identical error values — the error is `invalidPermission 8`,
carrying the offending flag but nothing identifying the contract, because
every call site passes only the flag to the error constructor. -/
theorem C3_counterexample :
    (hasBasePerm ⟨7, 32, 64, 0⟩ [(5, ⟨5, ⟨⟨0, 0⟩, []⟩⟩)] [5, 8]).result
        = .err (.invalidPermission 8) ∧
    (unsetBasePerm ⟨7, 32, 64, 0⟩ [(5, ⟨5, ⟨⟨0, 0⟩, []⟩⟩)] [5, 8]).result
        = .err (.invalidPermission 8) ∧
    (hasBasePerm ⟨7, 32, 64, 0⟩ [(5, ⟨5, ⟨⟨0, 0⟩, []⟩⟩)] [5, 8]).result
        = (unsetBasePerm ⟨7, 32, 64, 0⟩ [(5, ⟨5, ⟨⟨0, 0⟩, []⟩⟩)] [5, 8]).result := by
  decide

/-- C3 (amended): whenever an executable rejects a caller-supplied PermFlag
— because its low-64-bit reduction lies outside the valid ranges, or because
the base-permission mechanism rejects it (the empty flag, for the
executables that call `Set`/`Unset`) — the returned error is
`invalidPermission` applied to the offending reduced flag and nothing else:
the same error value for every contract, so it cannot name the contract
being invoked. Each conjunct carries only the hypotheses its own executable
needs to reach flag validation (its account lookup succeeding). -/
theorem C3_amended_error_carries_flag_only (C : PermConsts) (st : AppState)
    (args : List Nat) :
    (∀ acc, GetAccount st (args.getD 0 0) = some acc →
      ValidPermN C (Uint64FromWord256 (args.getD 1 0)) = false →
      (hasBasePerm C st args).result
        = .err (.invalidPermission (Uint64FromWord256 (args.getD 1 0)))) ∧
    (∀ acc, GetAccount st (args.getD 0 0) = some acc →
      (ValidPermN C (Uint64FromWord256 (args.getD 1 0)) = false ∨
        Uint64FromWord256 (args.getD 1 0) = 0) →
      (setBasePerm C st args).result
        = .err (.invalidPermission (Uint64FromWord256 (args.getD 1 0)))) ∧
    (∀ acc, GetAccount st (args.getD 0 0) = some acc →
      (ValidPermN C (Uint64FromWord256 (args.getD 1 0)) = false ∨
        Uint64FromWord256 (args.getD 1 0) = 0) →
      (unsetBasePerm C st args).result
        = .err (.invalidPermission (Uint64FromWord256 (args.getD 1 0)))) ∧
    (∀ gacc, GetAccount st C.GlobalPermissionsAddress = some gacc →
      (ValidPermN C (Uint64FromWord256 (args.getD 0 0)) = false ∨
        Uint64FromWord256 (args.getD 0 0) = 0) →
      (setGlobalPerm C st args).result
        = .err (.invalidPermission (Uint64FromWord256 (args.getD 0 0)))) := by
  refine ⟨?_, ?_, ?_, ?_⟩
  · intro acc hacc hflag
    simp only [List.getD_eq_getElem?_getD] at hacc hflag ⊢
    simp [hasBasePerm, returnTwoArgs, hacc, hflag]
  · intro acc hacc hrej
    simp only [List.getD_eq_getElem?_getD] at hacc hrej ⊢
    rcases hrej with hflag | h0
    · simp [setBasePerm, returnThreeArgs, hacc, hflag]
    · by_cases hv : ValidPermN C (Uint64FromWord256 (args[1]?.getD 0)) = false
      · rw [h0] at hv
        simp [setBasePerm, returnThreeArgs, hacc, hv, h0]
      · rw [h0] at hv
        simp [setBasePerm, returnThreeArgs, hacc, hv, h0, BasePermissions.set]
  · intro acc hacc hrej
    simp only [List.getD_eq_getElem?_getD] at hacc hrej ⊢
    rcases hrej with hflag | h0
    · simp [unsetBasePerm, returnTwoArgs, hacc, hflag]
    · by_cases hv : ValidPermN C (Uint64FromWord256 (args[1]?.getD 0)) = false
      · rw [h0] at hv
        simp [unsetBasePerm, returnTwoArgs, hacc, hv, h0]
      · rw [h0] at hv
        simp [unsetBasePerm, returnTwoArgs, hacc, hv, h0, BasePermissions.unset]
  · intro gacc hg hrej
    simp only [List.getD_eq_getElem?_getD] at hrej ⊢
    rcases hrej with hflag | h0
    · simp [setGlobalPerm, returnTwoArgs, hg, hflag]
    · by_cases hv : ValidPermN C (Uint64FromWord256 (args[0]?.getD 0)) = false
      · rw [h0] at hv
        simp [setGlobalPerm, returnTwoArgs, hg, hv, h0]
      · rw [h0] at hv
        simp [setGlobalPerm, returnTwoArgs, hg, hv, h0, BasePermissions.set]

/-- C3 amended witness: `HasBase` rejecting the gap flag 8 (bounds
7 < 32 ≤ 64) and `SetBase` rejected by the base-permission mechanism on the
empty flag 0 both return exactly `invalidPermission` of the reduced flag. -/
theorem C3_amended_witness :
    (GetAccount [(5, ⟨5, ⟨⟨0, 0⟩, []⟩⟩)] 5 = some ⟨5, ⟨⟨0, 0⟩, []⟩⟩) ∧
    (ValidPermN ⟨7, 32, 64, 0⟩ (Uint64FromWord256 8) = false) ∧
    (Uint64FromWord256 0 = 0) ∧
    (hasBasePerm ⟨7, 32, 64, 0⟩ [(5, ⟨5, ⟨⟨0, 0⟩, []⟩⟩)] [5, 8]).result
      = .err (.invalidPermission (Uint64FromWord256 8)) ∧
    (setBasePerm ⟨7, 32, 64, 0⟩ [(5, ⟨5, ⟨⟨0, 0⟩, []⟩⟩)] [5, 0, 1]).result
      = .err (.invalidPermission (Uint64FromWord256 0)) := by
  refine ⟨by decide, by decide, by decide, ?_, ?_⟩
  · exact (C3_amended_error_carries_flag_only ⟨7, 32, 64, 0⟩
      [(5, ⟨5, ⟨⟨0, 0⟩, []⟩⟩)] [5, 8]).1 ⟨5, ⟨⟨0, 0⟩, []⟩⟩
      (by decide) (by decide)
  · exact (C3_amended_error_carries_flag_only ⟨7, 32, 64, 0⟩
      [(5, ⟨5, ⟨⟨0, 0⟩, []⟩⟩)] [5, 0, 1]).2.1 ⟨5, ⟨⟨0, 0⟩, []⟩⟩
      (by decide) (Or.inr (by decide))

/-- C7: once the account exists, `AddRole` and `RmRole` succeed and persist
the account through exactly one `UpdateAccount` call, even when the role
operation was a no-op. -/
theorem C7_roles_always_persist (st : AppState) (args : List Nat)
    (acc : Account) (h : GetAccount st (args.getD 0 0) = some acc) :
    ((addRole st args).updates = [acc.Address] ∧
      (addRole st args).result.isOk = true) ∧
    ((rmRole st args).updates = [acc.Address] ∧
      (rmRole st args).result.isOk = true) := by
  simp only [List.getD_eq_getElem?_getD] at h
  unfold addRole rmRole returnTwoArgs
  simp [h, SnResult.isOk]

/-- C7 witness: a no-op `AddRole` (role already present) still persists. -/
theorem C7_witness :
    (GetAccount [(5, ⟨5, ⟨⟨0, 0⟩, [9]⟩⟩)] 5 = some ⟨5, ⟨⟨0, 0⟩, [9]⟩⟩) ∧
    (addRole [(5, ⟨5, ⟨⟨0, 0⟩, [9]⟩⟩)] [5, 9]).updates = [5] ∧
    (addRole [(5, ⟨5, ⟨⟨0, 0⟩, [9]⟩⟩)] [5, 9]).result.isOk = true := by
  refine ⟨by decide, ?_, ?_⟩
  · exact ((C7_roles_always_persist [(5, ⟨5, ⟨⟨0, 0⟩, [9]⟩⟩)] [5, 9]
      ⟨5, ⟨⟨0, 0⟩, [9]⟩⟩ (by decide)).1).1
  · exact ((C7_roles_always_persist [(5, ⟨5, ⟨⟨0, 0⟩, [9]⟩⟩)] [5, 9]
      ⟨5, ⟨⟨0, 0⟩, [9]⟩⟩ (by decide)).1).2

/-- C10: in `HasBase`, `SetBase` and `UnsetBase` the account-existence
check precedes flag validation: when the address resolves to no account and
the supplied flag is also invalid, the result is the unknown-account error
naming the address, not the invalid-permission error. -/
theorem C10_unknown_account_beats_invalid_flag (C : PermConsts)
    (st : AppState) (args : List Nat)
    (hacc : GetAccount st (args.getD 0 0) = none)
    (hflag : ValidPermN C (Uint64FromWord256 (args.getD 1 0)) = false) :
    (hasBasePerm C st args).result = .err (.unknownAccount (args.getD 0 0)) ∧
    (setBasePerm C st args).result = .err (.unknownAccount (args.getD 0 0)) ∧
    (unsetBasePerm C st args).result = .err (.unknownAccount (args.getD 0 0)) := by
  simp only [List.getD_eq_getElem?_getD] at hacc
  unfold hasBasePerm setBasePerm unsetBasePerm returnTwoArgs returnThreeArgs
  simp [hacc]

/-- C10 witness: empty state and gap flag 8 yield the unknown-account
error. -/
theorem C10_witness :
    (GetAccount [] 5 = none) ∧
    (ValidPermN ⟨7, 32, 64, 0⟩ (Uint64FromWord256 8) = false) ∧
    (hasBasePerm ⟨7, 32, 64, 0⟩ [] [5, 8]).result = .err (.unknownAccount 5) := by
  refine ⟨by decide, by decide, ?_⟩
  exact (C10_unknown_account_beats_invalid_flag ⟨7, 32, 64, 0⟩ [] [5, 8]
    (by decide) (by decide)).1

/-- C4: over a well-formed state, a successful `SetBase(A, f, v)` followed
by `HasBase(A, f)` (same flag word) returns the encoded boolean true when
`v` is a non-zero word and the encoded boolean false when `v = 0`. -/
theorem C4_setBase_hasBase_roundtrip (C : PermConsts) (st : AppState)
    (A w v o : Nat) (hwf : accountsWellFormed st = true)
    (h : (setBasePerm C st [A, w, v]).result = .ok o) :
    (hasBasePerm C (setBasePerm C st [A, w, v]).state [A, w]).result
      = .ok (if v = 0 then 0 else 1) := by
  cases hacc : GetAccount st A with
  | none => simp [setBasePerm, returnThreeArgs, hacc] at h
  | some acc =>
    have haddr : acc.Address = A := address_of_GetAccount st A acc hwf hacc
    by_cases hvalid : ValidPermN C (Uint64FromWord256 w) = false
    · simp [setBasePerm, returnThreeArgs, hacc, hvalid] at h
    · by_cases hzero : Uint64FromWord256 w = 0
      · simp [setBasePerm, returnThreeArgs, hacc, hvalid, hzero,
          BasePermissions.set] at h
      · have hpos : 0 < Uint64FromWord256 w := Nat.pos_of_ne_zero hzero
        by_cases hv : v = 0
        · simp [setBasePerm, hasBasePerm, returnThreeArgs, returnTwoArgs,
            hacc, hvalid, hzero, hv, BasePermissions.set,
            GetAccount_UpdateAccount, haddr, HasPermission, clearBits_land,
            LeftPadWord256]
        · simp [setBasePerm, hasBasePerm, returnThreeArgs, returnTwoArgs,
            hacc, hvalid, hzero, hv, BasePermissions.set,
            GetAccount_UpdateAccount, haddr, HasPermission, lor_land_self,
            hpos, LeftPadWord256]

/-- C4 witness: setting flag 2 to a non-zero value on a fresh account makes
`HasBase` report true. -/
theorem C4_witness :
    (accountsWellFormed [(5, ⟨5, ⟨⟨0, 0⟩, []⟩⟩)] = true) ∧
    ((setBasePerm ⟨7, 32, 64, 0⟩ [(5, ⟨5, ⟨⟨0, 0⟩, []⟩⟩)] [5, 2, 9]).result
      = .ok 9) ∧
    (hasBasePerm ⟨7, 32, 64, 0⟩
        (setBasePerm ⟨7, 32, 64, 0⟩ [(5, ⟨5, ⟨⟨0, 0⟩, []⟩⟩)] [5, 2, 9]).state
        [5, 2]).result = .ok 1 := by
  refine ⟨by decide, by decide, ?_⟩
  have := C4_setBase_hasBase_roundtrip ⟨7, 32, 64, 0⟩
    [(5, ⟨5, ⟨⟨0, 0⟩, []⟩⟩)] 5 2 9 9 (by decide) (by decide)
  simpa using this

/-- C5: a successful `SetGlobal` mutates only the account at the reserved
global-permissions address: every other address still resolves to the same
account, and `HasBase` on any other account for the same flag word returns
the same result before and after the call. -/
theorem C5_setGlobal_frame (C : PermConsts) (st : AppState) (w v o B : Nat)
    (hwf : accountsWellFormed st = true)
    (hB : B ≠ C.GlobalPermissionsAddress)
    (h : (setGlobalPerm C st [w, v]).result = .ok o) :
    GetAccount (setGlobalPerm C st [w, v]).state B = GetAccount st B ∧
    (hasBasePerm C (setGlobalPerm C st [w, v]).state [B, w]).result
      = (hasBasePerm C st [B, w]).result := by
  have hframe : GetAccount (setGlobalPerm C st [w, v]).state B = GetAccount st B := by
    cases hg : GetAccount st C.GlobalPermissionsAddress with
    | none => simp [setGlobalPerm, returnTwoArgs, hg] at h
    | some gacc =>
      have haddr : gacc.Address = C.GlobalPermissionsAddress :=
        address_of_GetAccount st C.GlobalPermissionsAddress gacc hwf hg
      by_cases hvalid : ValidPermN C (Uint64FromWord256 w) = false
      · simp [setGlobalPerm, returnTwoArgs, hg, hvalid] at h
      · by_cases hzero : Uint64FromWord256 w = 0
        · simp [setGlobalPerm, returnTwoArgs, hg, hvalid, hzero,
            BasePermissions.set] at h
        · simp [setGlobalPerm, returnTwoArgs, hg, hvalid, hzero,
            BasePermissions.set, GetAccount_UpdateAccount, haddr, hB]
  refine ⟨hframe, ?_⟩
  simp only [hasBasePerm, returnTwoArgs, List.getD_cons_zero,
    List.getD_cons_succ, hframe]
  cases GetAccount st B with
  | none => rfl
  | some b =>
    by_cases hv : ValidPermN C (Uint64FromWord256 w) = true <;> simp [hv]

/-- C5 witness: `SetGlobal` of flag 2 (global account at address 0) leaves
`HasBase` of the unrelated account at address 5 unchanged. -/
theorem C5_witness :
    (accountsWellFormed [(0, ⟨0, ⟨⟨0, 0⟩, []⟩⟩), (5, ⟨5, ⟨⟨0, 0⟩, []⟩⟩)] = true) ∧
    ((5 : Nat) ≠ (0 : Nat)) ∧
    ((setGlobalPerm ⟨7, 32, 64, 0⟩
        [(0, ⟨0, ⟨⟨0, 0⟩, []⟩⟩), (5, ⟨5, ⟨⟨0, 0⟩, []⟩⟩)] [2, 1]).result = .ok 1) ∧
    (hasBasePerm ⟨7, 32, 64, 0⟩
        (setGlobalPerm ⟨7, 32, 64, 0⟩
          [(0, ⟨0, ⟨⟨0, 0⟩, []⟩⟩), (5, ⟨5, ⟨⟨0, 0⟩, []⟩⟩)] [2, 1]).state
        [5, 2]).result
      = (hasBasePerm ⟨7, 32, 64, 0⟩
          [(0, ⟨0, ⟨⟨0, 0⟩, []⟩⟩), (5, ⟨5, ⟨⟨0, 0⟩, []⟩⟩)] [5, 2]).result := by
  refine ⟨by decide, by decide, by decide, ?_⟩
  exact (C5_setGlobal_frame ⟨7, 32, 64, 0⟩
    [(0, ⟨0, ⟨⟨0, 0⟩, []⟩⟩), (5, ⟨5, ⟨⟨0, 0⟩, []⟩⟩)] 2 1 1 5
    (by decide) (by decide) (by decide)).2

/-- C6: over a well-formed state, for an existing account: `AddRole` of a
role already present returns the encoded false and leaves the stored account
(hence its role set) unchanged; `RmRole` of an absent role returns the
encoded false and leaves the stored account unchanged; and a successful
`AddRole` followed by `RmRole` of the same role restores the stored account
exactly. -/
theorem C6_role_add_remove (st : AppState) (A r : Nat) (acc : Account)
    (hwf : accountsWellFormed st = true)
    (hacc : GetAccount st A = some acc) :
    (hasRoleIn acc.Permissions.Roles r = true →
      (addRole st [A, r]).result = .ok 0 ∧
      GetAccount (addRole st [A, r]).state A = some acc) ∧
    (hasRoleIn acc.Permissions.Roles r = false →
      (rmRole st [A, r]).result = .ok 0 ∧
      GetAccount (rmRole st [A, r]).state A = some acc) ∧
    (hasRoleIn acc.Permissions.Roles r = false →
      (addRole st [A, r]).result = .ok 1 ∧
      (rmRole (addRole st [A, r]).state [A, r]).result = .ok 1 ∧
      GetAccount (rmRole (addRole st [A, r]).state [A, r]).state A = some acc) := by
  have haddr : acc.Address = A := address_of_GetAccount st A acc hwf hacc
  subst haddr
  refine ⟨?_, ?_, ?_⟩
  · intro hr
    constructor
    · simp [addRole, returnTwoArgs, hacc, AccountPermissions.AddRole, hr,
        LeftPadWord256]
    · simp [addRole, returnTwoArgs, hacc, AccountPermissions.AddRole, hr,
        GetAccount_UpdateAccount]
  · intro hr
    constructor
    · simp [rmRole, returnTwoArgs, hacc, AccountPermissions.RmRole, hr,
        LeftPadWord256]
    · simp [rmRole, returnTwoArgs, hacc, AccountPermissions.RmRole, hr,
        GetAccount_UpdateAccount]
  · intro hr
    refine ⟨?_, ?_, ?_⟩
    · simp [addRole, returnTwoArgs, hacc, AccountPermissions.AddRole, hr,
        LeftPadWord256]
    · simp [addRole, rmRole, returnTwoArgs, hacc, AccountPermissions.AddRole,
        AccountPermissions.RmRole, hr, GetAccount_UpdateAccount,
        hasRoleIn_append_self, LeftPadWord256]
    · simp [addRole, rmRole, returnTwoArgs, hacc, AccountPermissions.AddRole,
        AccountPermissions.RmRole, hr, GetAccount_UpdateAccount,
        hasRoleIn_append_self, removeRole_append_of_absent, LeftPadWord256]

/-- C6 witness: adding role 9 to an account that lacks it and then removing
it restores the stored account exactly. -/
theorem C6_witness :
    (accountsWellFormed [(5, ⟨5, ⟨⟨0, 0⟩, [4]⟩⟩)] = true) ∧
    (GetAccount [(5, ⟨5, ⟨⟨0, 0⟩, [4]⟩⟩)] 5 = some ⟨5, ⟨⟨0, 0⟩, [4]⟩⟩) ∧
    (hasRoleIn [4] 9 = false) ∧
    GetAccount (rmRole (addRole [(5, ⟨5, ⟨⟨0, 0⟩, [4]⟩⟩)] [5, 9]).state
        [5, 9]).state 5 = some ⟨5, ⟨⟨0, 0⟩, [4]⟩⟩ := by
  refine ⟨by decide, by decide, by decide, ?_⟩
  exact ((C6_role_add_remove [(5, ⟨5, ⟨⟨0, 0⟩, [4]⟩⟩)] 5 9 ⟨5, ⟨⟨0, 0⟩, [4]⟩⟩
    (by decide) (by decide)).2.2 (by decide)).2.2

/-- C8: every boolean result of `HasBase`, `HasRole`, `AddRole` and `RmRole`
is the word 0 or 1 — whose 32-byte encoding has every byte zero except
possibly the low-order byte, which holds the result — with 1 encoding true
(illustrated on `HasRole`: 1 exactly when the role is present); and the
boolean argument of `SetBase` and `SetGlobal` is interpreted as true iff the
word is non-zero: two value words that are both zero or both non-zero give
the same final state, the same update trace and the same success. -/
theorem C8_boolean_encoding (C : PermConsts) (st : AppState) :
    (∀ args o, (hasBasePerm C st args).result = .ok o → o = 0 ∨ o = 1) ∧
    (∀ args o, (hasRole st args).result = .ok o → o = 0 ∨ o = 1) ∧
    (∀ args o, (addRole st args).result = .ok o → o = 0 ∨ o = 1) ∧
    (∀ args o, (rmRole st args).result = .ok o → o = 0 ∨ o = 1) ∧
    (∀ o i, o ≤ 1 → i < 31 → wordByte o i = 0) ∧
    (∀ o, o ≤ 1 → wordByte o 31 = o) ∧
    (∀ acc A r, GetAccount st A = some acc →
      (hasRole st [A, r]).result
        = .ok (if acc.Permissions.HasRole r then 1 else 0)) ∧
    (∀ A w v v', (v = 0 ↔ v' = 0) →
      (setBasePerm C st [A, w, v]).state = (setBasePerm C st [A, w, v']).state ∧
      (setBasePerm C st [A, w, v]).updates = (setBasePerm C st [A, w, v']).updates ∧
      (setBasePerm C st [A, w, v]).result.isOk
        = (setBasePerm C st [A, w, v']).result.isOk) ∧
    (∀ w v v', (v = 0 ↔ v' = 0) →
      (setGlobalPerm C st [w, v]).state = (setGlobalPerm C st [w, v']).state ∧
      (setGlobalPerm C st [w, v]).updates = (setGlobalPerm C st [w, v']).updates ∧
      (setGlobalPerm C st [w, v]).result.isOk
        = (setGlobalPerm C st [w, v']).result.isOk) := by
  refine ⟨?_, ?_, ?_, ?_, ?_, ?_, ?_, ?_, ?_⟩
  · intro args o h
    simp only [hasBasePerm] at h
    revert h
    repeat' split
    all_goals intro h
    all_goals first
      | (simp [LeftPadWord256] at h; omega)
      | simp at h
  · intro args o h
    simp only [hasRole] at h
    revert h
    repeat' split
    all_goals intro h
    all_goals first
      | (simp [LeftPadWord256] at h; omega)
      | simp at h
  · intro args o h
    simp only [addRole] at h
    revert h
    repeat' split
    all_goals intro h
    all_goals first
      | (simp [LeftPadWord256] at h; omega)
      | simp at h
  · intro args o h
    simp only [rmRole] at h
    revert h
    repeat' split
    all_goals intro h
    all_goals first
      | (simp [LeftPadWord256] at h; omega)
      | simp at h
  · intro o i ho hi
    have hlt : o < 256 ^ (31 - i) := by
      have h1 : (256 : Nat) ≤ 256 ^ (31 - i) := Nat.le_self_pow (by omega) 256
      omega
    simp [wordByte, Nat.div_eq_of_lt hlt]
  · intro o ho
    simp [wordByte]
    omega
  · intro acc A r hacc
    cases hr : hasRoleIn acc.Permissions.Roles r <;>
      simp [hasRole, returnTwoArgs, hacc, AccountPermissions.HasRole, hr,
        LeftPadWord256]
  · intro A w v v' hv
    have hd : (decide (v = 0)) = (decide (v' = 0)) := decide_eq_decide.mpr hv
    cases hacc : GetAccount st A with
    | none => simp [setBasePerm, returnThreeArgs, hacc, SnResult.isOk]
    | some acc =>
      by_cases hvalid : ValidPermN C (Uint64FromWord256 w) = false
      · simp [setBasePerm, returnThreeArgs, hacc, hvalid, SnResult.isOk]
      · cases hset : acc.Permissions.Base.set (Uint64FromWord256 w)
            (!decide (v = 0)) with
        | none =>
          have hset2 : acc.Permissions.Base.set (Uint64FromWord256 w)
              (!decide (v' = 0)) = none := by rw [← hd]; exact hset
          simp [setBasePerm, returnThreeArgs, hacc, hvalid, hset, hset2,
            SnResult.isOk]
        | some nb =>
          have hset2 : acc.Permissions.Base.set (Uint64FromWord256 w)
              (!decide (v' = 0)) = some nb := by rw [← hd]; exact hset
          simp [setBasePerm, returnThreeArgs, hacc, hvalid, hset, hset2,
            SnResult.isOk]
  · intro w v v' hv
    have hd : (decide (v = 0)) = (decide (v' = 0)) := decide_eq_decide.mpr hv
    cases hacc : GetAccount st C.GlobalPermissionsAddress with
    | none => simp [setGlobalPerm, returnTwoArgs, hacc, SnResult.isOk]
    | some acc =>
      by_cases hvalid : ValidPermN C (Uint64FromWord256 w) = false
      · simp [setGlobalPerm, returnTwoArgs, hacc, hvalid, SnResult.isOk]
      · cases hset : acc.Permissions.Base.set (Uint64FromWord256 w)
            (!decide (v = 0)) with
        | none =>
          have hset2 : acc.Permissions.Base.set (Uint64FromWord256 w)
              (!decide (v' = 0)) = none := by rw [← hd]; exact hset
          simp [setGlobalPerm, returnTwoArgs, hacc, hvalid, hset, hset2,
            SnResult.isOk]
        | some nb =>
          have hset2 : acc.Permissions.Base.set (Uint64FromWord256 w)
              (!decide (v' = 0)) = some nb := by rw [← hd]; exact hset
          simp [setGlobalPerm, returnTwoArgs, hacc, hvalid, hset, hset2,
            SnResult.isOk]

/-- C8 witness: a concrete `HasRole` success output is 0 or 1, and `SetBase`
with value words 3 and 7 (both non-zero) produces the same state. -/
theorem C8_witness :
    (((1 : Nat) = 0 ∨ (1 : Nat) = 1) ∧ wordByte 1 5 = 0 ∧ wordByte 1 31 = 1) ∧
    (setBasePerm ⟨7, 32, 64, 0⟩ [(5, ⟨5, ⟨⟨0, 0⟩, []⟩⟩)] [5, 2, 3]).state
      = (setBasePerm ⟨7, 32, 64, 0⟩ [(5, ⟨5, ⟨⟨0, 0⟩, []⟩⟩)] [5, 2, 7]).state := by
  constructor
  · refine ⟨?_, ?_, ?_⟩
    · exact (C8_boolean_encoding ⟨7, 32, 64, 0⟩
        [(5, ⟨5, ⟨⟨0, 0⟩, [9]⟩⟩)]).2.1 [5, 9] 1 (by decide)
    · exact (C8_boolean_encoding ⟨7, 32, 64, 0⟩
        [(5, ⟨5, ⟨⟨0, 0⟩, [9]⟩⟩)]).2.2.2.2.1 1 5 (by decide) (by decide)
    · exact (C8_boolean_encoding ⟨7, 32, 64, 0⟩
        [(5, ⟨5, ⟨⟨0, 0⟩, [9]⟩⟩)]).2.2.2.2.2.1 1 (by decide)
  · exact ((C8_boolean_encoding ⟨7, 32, 64, 0⟩
      [(5, ⟨5, ⟨⟨0, 0⟩, []⟩⟩)]).2.2.2.2.2.2.2.1 5 2 3 7 (by decide)).1

/-- C9 counterexample: the argument words 1 and 2^64 + 1 agree on their low
8 bytes, yet a successful `UnsetBase` echoes the full argument word, so the
two invocations return different outputs — behaviour is not identical. -/
theorem C9_counterexample :
    Uint64FromWord256 1 = Uint64FromWord256 (2 ^ 64 + 1) ∧
    (unsetBasePerm ⟨7, 32, 64, 0⟩ [(5, ⟨5, ⟨⟨3, 3⟩, []⟩⟩)] [5, 1]).result ≠
      (unsetBasePerm ⟨7, 32, 64, 0⟩ [(5, ⟨5, ⟨⟨3, 3⟩, []⟩⟩)]
        [5, 2 ^ 64 + 1]).result := by
  constructor
  · decide
  · decide

/-- C9 (amended): in the four flag-taking executables the flag used for
validation and state mutation is the argument word reduced to its low 64
bits, so two argument words agreeing there produce identical behaviour for
`HasBase`, `SetBase` and `SetGlobal`, and for `UnsetBase` identical errors,
final state and update trace — only its success output, which echoes the
full argument word, may differ in the upper bytes. -/
theorem C9_amended_low64 (C : PermConsts) (st : AppState) (a w w' v : Nat)
    (h : Uint64FromWord256 w = Uint64FromWord256 w') :
    hasBasePerm C st [a, w] = hasBasePerm C st [a, w'] ∧
    setBasePerm C st [a, w, v] = setBasePerm C st [a, w', v] ∧
    setGlobalPerm C st [w, v] = setGlobalPerm C st [w', v] ∧
    (unsetBasePerm C st [a, w]).state = (unsetBasePerm C st [a, w']).state ∧
    (unsetBasePerm C st [a, w]).updates = (unsetBasePerm C st [a, w']).updates ∧
    (unsetBasePerm C st [a, w]).result.isOk
      = (unsetBasePerm C st [a, w']).result.isOk ∧
    (∀ e, (unsetBasePerm C st [a, w]).result = .err e ↔
      (unsetBasePerm C st [a, w']).result = .err e) := by
  refine ⟨?_, ?_, ?_, ?_⟩
  · simp only [hasBasePerm, returnTwoArgs, List.getD_cons_zero,
      List.getD_cons_succ, h]
  · simp only [setBasePerm, returnThreeArgs, List.getD_cons_zero,
      List.getD_cons_succ, h]
  · simp only [setGlobalPerm, returnTwoArgs, List.getD_cons_zero,
      List.getD_cons_succ, h]
  · cases hacc : GetAccount st a with
    | none =>
      simp [unsetBasePerm, returnTwoArgs, hacc, SnResult.isOk]
    | some acc =>
      by_cases hvalid : ValidPermN C (Uint64FromWord256 w) = false
      · have hvalid' : ValidPermN C (Uint64FromWord256 w') = false := h ▸ hvalid
        simp [unsetBasePerm, returnTwoArgs, hacc, hvalid, hvalid', h,
          SnResult.isOk]
      · have hvalid' : ¬ ValidPermN C (Uint64FromWord256 w') = false :=
          h ▸ hvalid
        cases hun : acc.Permissions.Base.unset (Uint64FromWord256 w) with
        | none =>
          have hun' : acc.Permissions.Base.unset (Uint64FromWord256 w') = none :=
            h ▸ hun
          simp [unsetBasePerm, returnTwoArgs, hacc, hvalid, hvalid', hun, hun',
            h, SnResult.isOk]
        | some nb =>
          have hun' : acc.Permissions.Base.unset (Uint64FromWord256 w')
              = some nb := h ▸ hun
          simp [unsetBasePerm, returnTwoArgs, hacc, hvalid, hvalid', hun, hun',
            SnResult.isOk]

/-- C9 amended witness: concrete words 1 and 2^64 + 1 give identical
`HasBase` outcomes. -/
theorem C9_amended_witness :
    Uint64FromWord256 1 = Uint64FromWord256 (2 ^ 64 + 1) ∧
    hasBasePerm ⟨7, 32, 64, 0⟩ [(5, ⟨5, ⟨⟨3, 3⟩, []⟩⟩)] [5, 1]
      = hasBasePerm ⟨7, 32, 64, 0⟩ [(5, ⟨5, ⟨⟨3, 3⟩, []⟩⟩)] [5, 2 ^ 64 + 1] := by
  constructor
  · decide
  · exact (C9_amended_low64 ⟨7, 32, 64, 0⟩ [(5, ⟨5, ⟨⟨3, 3⟩, []⟩⟩)] 5 1
      (2 ^ 64 + 1) 0 (by decide)).1

end SNative
